import Mathlib

/-!
# wordpress-go: configuration, client construction and dispatch

A shallow embedding of `config.go`, `client.go` and `internal/build/build.go`.

* Go pointers that may be nil (`*Application`, `*Config`, `*Client`, `*httpx.UserAgent`,
  the `Logger` interface value, `error`) are `Option` values, `none` being nil.  An
  interface value that is not nil but holds a nil pointer is a `Logger` of its own kind.
* A method with a pointer receiver that mutates it (`Config.init`) is a function from the
  state before to the state after.  `Config.mu` only serialises concurrent callers and has
  no content in this sequential model.
* `int` and `time.Duration` are `Int`; the code only compares and assigns them, so no
  wrap-around can occur.
* Functions of other packages (`url.Parse`, the `httpx` transport, `io.ReadAll`,
  `httputil.DumpResponse`, `httpx.DrainResponseBody`) are parameters, or their results are
  fields of the abstract value they act on.
-/

namespace Wordpress

/-! ## Errors -/

/-- Go error values: `xerrors.Error` string constants, the two `fmt.Errorf` shapes the
package uses, and errors produced outside the package. -/
inductive Error where
  /-- An `xerrors.Error` constant with the given text. -/
  | sentinel (msg : String)
  /-- The value of `fmt.Errorf("%w: %w", outer, inner)`. -/
  | wrap2 (outer inner : Error)
  /-- The value of `fmt.Errorf("%w", inner)`. -/
  | wrap1 (inner : Error)
  /-- An error made by another package (URL parsing, transport, reading). -/
  | foreign (msg : String)
  deriving DecidableEq, Repr

/-- The text of an error, Go `err.Error()`. -/
def Error.text : Error → String
  | .sentinel m => m
  | .wrap2 a b => a.text ++ ": " ++ b.text
  | .wrap1 e => e.text
  | .foreign m => m

/-- Go `errors.Is(e, target)`: `e` equals `target` or one of the errors it wraps does. -/
def Error.Is : Error → Error → Bool
  | .sentinel m, t => decide (Error.sentinel m = t)
  | .foreign m, t => decide (Error.foreign m = t)
  | .wrap1 e, t => decide (Error.wrap1 e = t) || e.Is t
  | .wrap2 a b, t => decide (Error.wrap2 a b = t) || a.Is t || b.Is t

def ErrInvalidApplication : Error := .sentinel "invalid application"
def ErrInvalidEndpoint : Error := .sentinel "invalid endpoint"
def ErrEndpointRequired : Error := .sentinel "endpoint required"
def ErrUsernameRequired : Error := .sentinel "username required"
def ErrPasswordRequired : Error := .sentinel "password required"
def ErrApplicationRequired : Error := .sentinel "application required"
def ErrApplicationNameRequired : Error := .sentinel "application name required"
def ErrApplicationVersionRequired : Error := .sentinel "application version required"
def ErrApplicationContactRequired : Error := .sentinel "application contact required"
def ErrConfigRequired : Error := .sentinel "config cannot be empty"

/-! ## Build constants (`internal/build/build.go`) -/

namespace build

def Name : String := "wordpress-go"
def Version : String := "0.1.0"
def URL : String := "https:///git.sr.ht/~jamesponddotco/wordpress-go"

end build

/-! ## Defaults -/

/-- One second as a `time.Duration`, in nanoseconds. -/
def Second : Int := 1000000000

def DefaultMaxRetries : Int := 3
def DefaultTimeout : Int := 60 * Second

/-! ## Application -/

/-- The calling program. -/
structure Application where
  Name : String
  Version : String
  Contact : String
  deriving DecidableEq, Repr

/-- The value of `httpx.UserAgent` as far as this package fills it. -/
structure UserAgent where
  Token : String
  Version : String
  Comment : List String
  deriving DecidableEq, Repr

/-- `(*Application).validate`: the error, or `none` for nil. -/
def Application.validate (a : Application) : Option Error :=
  if a.Name = "" then
    some (.wrap2 ErrInvalidApplication ErrApplicationNameRequired)
  else if a.Version = "" then
    some (.wrap2 ErrInvalidApplication ErrApplicationVersionRequired)
  else if a.Contact = "" then
    some (.wrap2 ErrInvalidApplication ErrApplicationContactRequired)
  else
    none

/-- `NewApplication`: the returned pointer and the returned error. -/
def NewApplication (name version contact : String) : Option Application × Option Error :=
  let app : Application := { Name := name, Version := version, Contact := contact }
  match app.validate with
  | some err => (none, some err)
  | none => (some app, none)

/-- `DefaultApplication`. -/
def DefaultApplication : Application :=
  { Name := build.Name, Version := build.Version, Contact := build.URL }

/-- `(*Application).UserAgent`: nil when validation fails. -/
def Application.UserAgent (a : Application) : Option UserAgent :=
  match a.validate with
  | some _ => none
  | none => some { Token := a.Name, Version := a.Version, Comment := [a.Contact] }

/-! ## Config -/

/-- A `Logger` interface value that is not nil: a working one the caller supplied (told
apart by a tag), the one `init` makes with `log.New(os.Stderr, "", log.LstdFlags)`, or an
interface value that holds a nil pointer, such as `(*log.Logger)(nil)`.  The last compares
unequal to nil, and its `Printf` dereferences the nil pointer. -/
inductive Logger where
  | supplied (tag : Nat)
  | stderrStd
  | typedNil
  deriving DecidableEq, Repr

/-- Whether `Printf` on the interface value runs; on one that holds a nil pointer it
panics. -/
def Logger.callable : Logger → Bool
  | .supplied _ => true
  | .stderrStd => true
  | .typedNil => false

/-- The fields of `Config` apart from the mutex. -/
structure Config where
  Application : Option Application
  Logger : Option Logger
  Endpoint : String
  Username : String
  Password : String
  MaxRetries : Int
  Timeout : Int
  Debug : Bool
  deriving DecidableEq, Repr

/-- `(*Config).validate`; `urlParse` gives the error result of `url.Parse`. -/
def Config.validate (urlParse : String → Option Error) (c : Config) : Option Error :=
  match c.Application with
  | none => some ErrApplicationRequired
  | some app =>
    match app.validate with
    | some err => some err
    | none =>
      if c.Endpoint = "" then
        some ErrEndpointRequired
      else
        match urlParse c.Endpoint with
        | some err => some (.wrap2 ErrInvalidEndpoint err)
        | none =>
          if c.Username = "" then
            some ErrUsernameRequired
          else if c.Password = "" then
            some ErrPasswordRequired
          else
            none

/-- `NewConfig`: the returned pointer and the returned error. -/
def NewConfig (urlParse : String → Option Error) (app : Option Application)
    (endpoint username password : String) : Option Config × Option Error :=
  let c : Config :=
    { Application := app
      Logger := none
      Endpoint := endpoint
      Username := username
      Password := password
      MaxRetries := DefaultMaxRetries
      Timeout := DefaultTimeout
      Debug := false }
  match c.validate urlParse with
  | some err => (none, some err)
  | none => (some c, none)

/-- `(*Config).init`: the Config after the call. -/
def Config.init (c : Config) : Config :=
  let c := if c.Application = none then { c with Application := some DefaultApplication } else c
  let c := if c.MaxRetries < 1 then { c with MaxRetries := DefaultMaxRetries } else c
  let c := if c.Timeout < 1 then { c with Timeout := DefaultTimeout } else c
  let c := if c.Logger = none ∧ c.Debug = true then { c with Logger := some .stderrStd } else c
  c

/-! ## Client -/

/-- What a call can end in: it returns its pair of results, it panics on a nil pointer
(or nil interface) dereference, it panics on a write to a nil map, or `log.Fatal` ends the
process. -/
inductive Outcome (α : Type) where
  | returned (val : Option α) (err : Option Error)
  | nilDeref
  | nilMapWrite
  | fatal (err : Error)
  deriving DecidableEq, Repr

/-- The value of `rate.NewLimiter(rate.Limit(limit), burst)`. -/
structure RateLimiter where
  limit : Nat
  burst : Nat
  deriving DecidableEq, Repr

/-- The value of `httpx.DefaultRetryPolicy()`. -/
inductive RetryPolicy where
  | default
  deriving DecidableEq, Repr

/-- The fields of `httpx.Client` that `NewClient` sets. -/
structure HttpxClient where
  RateLimiter : RateLimiter
  RetryPolicy : RetryPolicy
  UserAgent : Option UserAgent
  deriving DecidableEq, Repr

/-- A `Client`.  `cfg` is the Config the pointer `cfg` refers to, as it is when the Client
is looked at; `common.client` points back at the Client itself and carries nothing more. -/
structure Client where
  httpc : HttpxClient
  cfg : Option Config
  deriving DecidableEq, Repr

/-- `NewClient`: the Config behind the argument pointer after the call (`none` for a nil
pointer), and how the call ends. -/
def NewClient (urlParse : String → Option Error) (cfg : Option Config) :
    Option Config × Outcome Client :=
  match cfg with
  | none => (none, .returned none (some ErrConfigRequired))
  | some cfg0 =>
    let cfg := cfg0.init
    match cfg.validate urlParse with
    | some err => (some cfg, .returned none (some err))
    | none =>
      match cfg.Application with
      | none => (some cfg, .nilDeref)
      | some app =>
        let c : Client :=
          { httpc :=
              { RateLimiter := { limit := 2, burst := 1 }
                RetryPolicy := .default
                UserAgent := app.UserAgent }
            cfg := some cfg }
        (some cfg, .returned (some c) none)

/-! ## Requests and responses -/

/-- An `http.Header`: keys with their value lists. -/
abbrev Header := List (String × List String)

/-- A copy of a value list. -/
def copyValues : List String → List String
  | [] => []
  | v :: vs => v :: copyValues vs

/-- `http.Header.Clone`: a new header with a copy of every entry. -/
def Header.Clone : Header → Header
  | [] => []
  | (k, vv) :: rest => (k, copyValues vv) :: Header.Clone rest

/-- The parts of an `http.Request` the client reads or writes. -/
structure Request where
  Method : String
  URL : String
  Header : Header
  deriving DecidableEq, Repr

/-- A `Response`; the body bytes are numbers below 256. -/
structure Response where
  Header : Header
  Body : List Nat
  Status : Int
  deriving DecidableEq, Repr

/-- What the transport hands back, with the results the library calls on it give:
`readAll` is the result of `io.ReadAll(ret.Body)`, `dump` that of
`httputil.DumpResponse(ret, true)`, `drain` the error of `httpx.DrainResponseBody(ret)`. -/
structure RawResponse where
  Header : Header
  StatusCode : Int
  readAll : Except Error (List Nat)
  dump : Except Error (List Nat)
  drain : Option Error

/-- The transport: the result of `httpc.Do(ctx, req)`. -/
abbrev Transport := Request → Except Error RawResponse

/-- What the logger is asked to print. -/
inductive LogMsg where
  /-- The line `request: METHOD URL`. -/
  | request (method url : String)
  /-- A newline followed by a dump. -/
  | dump (bytes : List Nat)
  deriving DecidableEq, Repr

/-- The effects of `request` and `do`, in the order they happen. -/
inductive Event where
  | printf (l : Logger) (msg : LogMsg)
  | newRequest (method uri : String)
  | dumpRequest
  | send (req : Request)
  | dumpResponse
  | readBody
  | drain
  | logFatal (err : Error)
  deriving DecidableEq, Repr

/-- A call `c.cfg.Logger.Printf(...)`: the event, or `none` when the call panics with a
nil dereference, because the Logger is nil or holds a nil pointer. -/
def printfOn (cfg : Config) (msg : LogMsg) : Option (List Event) :=
  match cfg.Logger with
  | none => none
  | some l => if l.callable then some [.printf l msg] else none

/-- With Debug on the Config has a Logger whose `Printf` runs. -/
def Config.canLog (cfg : Config) : Prop :=
  cfg.Debug = true → ∃ l, cfg.Logger = some l ∧ l.callable = true

/-- The deferred function of `do`: it runs when the rest of the body has ended in `r`,
drains the raw response and calls `log.Fatal` if that fails. -/
def deferredDrain (ret : RawResponse) (r : List Event × Outcome Response) :
    List Event × Outcome Response :=
  match ret.drain with
  | some err => (r.1 ++ [.drain, .logFatal err], .fatal err)
  | none => (r.1 ++ [.drain], r.2)

/-- The body of `do` after the `defer` statement. -/
def doAfterDefer (cfg : Config) (ret : RawResponse) : List Event × Outcome Response :=
  let dumped : Except (List Event × Outcome Response) (List Event) :=
    if cfg.Debug then
      match ret.dump with
      | .error err => .error ([.dumpResponse], .returned none (some (.wrap1 err)))
      | .ok dump =>
        match printfOn cfg (.dump dump) with
        | none => .error ([.dumpResponse], .nilDeref)
        | some evs => .ok (.dumpResponse :: evs)
    else
      .ok []
  match dumped with
  | .error r => r
  | .ok evs =>
    match ret.readAll with
    | .error err => (evs ++ [.readBody], .returned none (some (.wrap1 err)))
    | .ok body =>
      let response : Response :=
        { Header := Header.Clone ret.Header, Body := body, Status := ret.StatusCode }
      (evs ++ [.readBody], .returned (some response) none)

/-- `(*Client).do`: the effects and how the call ends. -/
def Client.do (transport : Transport) (c : Client) (req : Request) :
    List Event × Outcome Response :=
  match c.cfg with
  | none => ([], .nilDeref)
  | some cfg =>
    let logged : Option (List Event) :=
      if cfg.Debug then printfOn cfg (.request req.Method req.URL) else some []
    match logged with
    | none => ([], .nilDeref)
    | some evs =>
      match transport req with
      | .error err => (evs ++ [.send req], .returned none (some (.wrap1 err)))
      | .ok ret =>
        let r := deferredDrain ret (doAfterDefer cfg ret)
        (evs ++ [.send req] ++ r.1, r.2)

/-! ## Building a request -/

/-- A `map[string]string` that is not nil: its entries, in the order a `range` loop visits
them.  A nil map is `none : Option HeaderMap`. -/
abbrev HeaderMap := List (String × String)

/-- The map read `headers[k]` with the comma-ok form; a nil map has no key. -/
def mapGet (headers : Option HeaderMap) (k : String) : Option String :=
  match headers with
  | none => none
  | some m => m.lookup k

/-- The map write `m[k] = v` on a map that is not nil. -/
def mapSet (m : HeaderMap) (k v : String) : HeaderMap :=
  if m.any (fun e => e.1 = k) then
    m.map (fun e => if e.1 = k then (k, v) else e)
  else
    m ++ [(k, v)]

/-- `http.Header.Set(k, v)`: the entry under the canonical form of `k` becomes the single
value `v`; `canon` is `textproto.CanonicalMIMEHeaderKey`. -/
def Header.Set (canon : String → String) (h : Header) (k v : String) : Header :=
  if h.any (fun e => e.1 = canon k) then
    h.map (fun e => if e.1 = canon k then (canon k, [v]) else e)
  else
    h ++ [(canon k, [v])]

/-- The libraries `request` calls: `uaString` is `(*httpx.UserAgent).String`, `newRequest`
is `http.NewRequestWithContext` with the context and body already given, `canon` is the
header key canonicalisation of `Header.Set`, and `dumpRequest` is the result of
`httputil.DumpRequest(req, true)`. -/
structure RequestLibs where
  uaString : UserAgent → String
  newRequest : String → String → Except Error Request
  canon : String → String
  dumpRequest : Request → Except Error (List Nat)

/-- The expression `c.cfg.Application.UserAgent().String()`; `none` when a pointer on the
way is nil. -/
def Client.userAgentString (libs : RequestLibs) (c : Client) : Option String :=
  match c.cfg with
  | none => none
  | some cfg =>
    match cfg.Application with
    | none => none
    | some app =>
      match app.UserAgent with
      | none => none
      | some ua => some (libs.uaString ua)

/-- The entries a `range` loop over the map visits; none for a nil map. -/
def mapEntries (headers : Option HeaderMap) : HeaderMap :=
  match headers with
  | none => []
  | some m => m

/-- The body of `request` from the call of `http.NewRequestWithContext` on, with the map
the caller's headers have become. -/
def Client.requestBuild (libs : RequestLibs) (c : Client) (method uri : String)
    (headers : Option HeaderMap) : List Event × Outcome Request :=
  match libs.newRequest method uri with
  | .error err => ([.newRequest method uri], .returned none (some (.wrap1 err)))
  | .ok req0 =>
    let req : Request :=
      (mapEntries headers).foldl
        (fun r kv => { r with Header := Header.Set libs.canon r.Header kv.1 kv.2 }) req0
    match c.cfg with
    | none => ([.newRequest method uri], .nilDeref)
    | some cfg =>
      if cfg.Debug then
        match libs.dumpRequest req with
        | .error err =>
          ([.newRequest method uri, .dumpRequest], .returned none (some (.wrap1 err)))
        | .ok dump =>
          match printfOn cfg (.dump dump) with
          | none => ([.newRequest method uri, .dumpRequest], .nilDeref)
          | some evs =>
            ([.newRequest method uri, .dumpRequest] ++ evs, .returned (some req) none)
      else
        ([.newRequest method uri], .returned (some req) none)

/-- `(*Client).request`: the caller's map after the call, the effects, and how the call
ends. -/
def Client.request (libs : RequestLibs) (c : Client) (method uri : String)
    (headers : Option HeaderMap) : Option HeaderMap × List Event × Outcome Request :=
  if (mapGet headers "User-Agent").isSome then
    (headers, c.requestBuild libs method uri headers)
  else
    match c.userAgentString libs with
    | none => (headers, [], .nilDeref)
    | some ua =>
      match headers with
      | none => (none, [], .nilMapWrite)
      | some m =>
        let headers := some (mapSet m "User-Agent" ua)
        (headers, c.requestBuild libs method uri headers)

/-! ## Sample collaborators -/

/-- A URL parser that rejects what `url.Parse` rejects with "missing protocol scheme"
(a leading colon) and accepts everything else. -/
def sampleParse (s : String) : Option Error :=
  match s.data with
  | ':' :: _ => some (.foreign ("parse \"" ++ s ++ "\": missing protocol scheme"))
  | _ => none

/-- A valid application, the one the package tests build Configs from. -/
def testApp : Application :=
  { Name := "Test App", Version := "1.0.0", Contact := "https://testapp.com" }

/-- A Config with the given application and endpoint and otherwise fixed fields. -/
def testConfig (app : Option Application) (endpoint username password : String) : Config :=
  { Application := app
    Logger := none
    Endpoint := endpoint
    Username := username
    Password := password
    MaxRetries := 0
    Timeout := 0
    Debug := false }

/-- A Config with the given MaxRetries and Timeout and otherwise valid fields. -/
def numericConfig (retries timeout : Int) : Config :=
  { Application := some testApp
    Logger := none
    Endpoint := "https://example.com"
    Username := "testuser"
    Password := "testpassword"
    MaxRetries := retries
    Timeout := timeout
    Debug := false }

/-- The Client `NewClient` builds from a Config that has only Endpoint, Username and
Password set and Debug on. -/
def debugClient : Client :=
  { httpc :=
      { RateLimiter := { limit := 2, burst := 1 }
        RetryPolicy := .default
        UserAgent := some { Token := "wordpress-go", Version := "0.1.0",
                            Comment := ["https:///git.sr.ht/~jamesponddotco/wordpress-go"] } }
    cfg := some
      { Application := some DefaultApplication
        Logger := some .stderrStd
        Endpoint := "https://example.com"
        Username := "u"
        Password := "p"
        MaxRetries := 3
        Timeout := 60000000000
        Debug := true } }

/-- The Config `debugClient` is built from. -/
def debugConfig : Config :=
  { Application := none
    Logger := none
    Endpoint := "https://example.com"
    Username := "u"
    Password := "p"
    MaxRetries := 0
    Timeout := -1
    Debug := true }

/-- A valid Config with Debug on whose Logger is an interface value holding a nil
pointer, as in `Config{Logger: (*log.Logger)(nil), Debug: true}`. -/
def typedNilConfig : Config :=
  { Application := some testApp
    Logger := some .typedNil
    Endpoint := "https://example.com"
    Username := "u"
    Password := "p"
    MaxRetries := 3
    Timeout := 60000000000
    Debug := true }

/-- The Client `NewClient` builds from `typedNilConfig`. -/
def typedNilClient : Client :=
  { httpc :=
      { RateLimiter := { limit := 2, burst := 1 }
        RetryPolicy := .default
        UserAgent := some { Token := "Test App", Version := "1.0.0",
                            Comment := ["https://testapp.com"] } }
    cfg := some typedNilConfig }

/-- A Client as `NewClient` builds it from a valid Config with Debug off. -/
def plainClient : Client :=
  { httpc :=
      { RateLimiter := { limit := 2, burst := 1 }
        RetryPolicy := .default
        UserAgent := some { Token := "Test App", Version := "1.0.0",
                            Comment := ["https://testapp.com"] } }
    cfg := some
      { Application := some testApp
        Logger := none
        Endpoint := "https://example.com"
        Username := "u"
        Password := "p"
        MaxRetries := 3
        Timeout := 60000000000
        Debug := false } }

/-- A request to send. -/
def getRequest : Request :=
  { Method := "GET", URL := "https://example.com/wp-json/wp/v2/posts", Header := [] }

/-- A raw response with status 200 and the two bytes of "ok" as body, which drains and
closes without error. -/
def okResponse : RawResponse :=
  { Header := [("Content-Type", ["text/plain"])]
    StatusCode := 200
    readAll := .ok [111, 107]
    dump := .ok []
    drain := none }

/-- The same raw response with a body that reads fully but fails to close. -/
def closeFailResponse : RawResponse :=
  { okResponse with drain := some (.foreign "close failed") }

/-- A transport that answers every request with `okResponse`. -/
def okTransport : Transport := fun _ => .ok okResponse

/-- A transport that answers every request with `closeFailResponse`. -/
def closeFailTransport : Transport := fun _ => .ok closeFailResponse

/-- A transport that fails on every request. -/
def failTransport : Transport := fun _ => .error (.foreign "connection refused")

/-- A raw response whose debug dump fails. -/
def dumpFailResponse : RawResponse :=
  { okResponse with dump := .error (.foreign "dump failed") }

/-- A raw response whose body cannot be read. -/
def readFailResponse : RawResponse :=
  { okResponse with readAll := .error (.foreign "unexpected EOF") }

/-- A transport that answers every request with `dumpFailResponse`. -/
def dumpFailTransport : Transport := fun _ => .ok dumpFailResponse

/-- A transport that answers every request with `readFailResponse`. -/
def readFailTransport : Transport := fun _ => .ok readFailResponse

/-- Header key canonicalisation on the characters of a key: the first letter and every
letter after a hyphen in upper case, the others in lower case. -/
def canonChars : Bool → List Char → List Char
  | _, [] => []
  | upper, c :: cs => (if upper then c.toUpper else c.toLower) :: canonChars (c = '-') cs

/-- A header key canonicalisation for keys made of letters, digits and hyphens. -/
def sampleCanon (k : String) : String := ⟨canonChars true k.data⟩

/-- A rendering of a user agent: token, slash, version, and the comments in brackets. -/
def sampleUaString (ua : UserAgent) : String :=
  ua.Token ++ "/" ++ ua.Version ++ " (" ++ "; ".intercalate ua.Comment ++ ")"

/-- Libraries for `request`: request construction rejects an empty URI and otherwise
gives a request without headers; dumping a request succeeds. -/
def sampleLibs : RequestLibs :=
  { uaString := sampleUaString
    newRequest := fun method uri =>
      if uri = "" then .error (.foreign "empty url")
      else .ok { Method := method, URL := uri, Header := [] }
    canon := sampleCanon
    dumpRequest := fun _ => .ok [] }

/-- A caller's headers without a User-Agent entry. -/
def acceptHeaders : HeaderMap := [("Accept", "application/json")]

/-- A caller's headers with a User-Agent entry. -/
def agentHeaders : HeaderMap := [("User-Agent", "custom/2.0"), ("Accept", "application/json")]

/-! ## Facts about errors -/

theorem Error.Is_self (e : Error) : e.Is e = true := by
  cases e <;> simp [Error.Is]

theorem Error.wrap2_Is_outer (a b : Error) : (Error.wrap2 a b).Is a = true := by
  simp [Error.Is, Error.Is_self]

theorem Error.wrap2_Is_inner (a b : Error) : (Error.wrap2 a b).Is b = true := by
  simp [Error.Is, Error.Is_self]

theorem Error.wrap1_Is_inner (e : Error) : (Error.wrap1 e).Is e = true := by
  simp [Error.Is, Error.Is_self]

/-! ## Application -/

theorem Application.validate_passes_iff_fields (a : Application) :
    a.validate = none ↔ a.Name ≠ "" ∧ a.Version ≠ "" ∧ a.Contact ≠ "" := by
  unfold Application.validate
  split_ifs <;> simp_all

/-! ## C1: the order of the checks of `Config.validate` -/

/-- C1: `Config.validate` returns the error of the first failing check, in the order
Application nil, Application invalid, Endpoint empty, Endpoint unparseable (wrapping both
`ErrInvalidEndpoint` and the parse error), Username empty, Password empty, and nil when no
check fails; with a nil Application and an empty Endpoint the result is
`ErrApplicationRequired` and not `ErrEndpointRequired`. -/
theorem validate_first_failing_check (urlParse : String → Option Error) (c : Config) :
    (c.Application = none → c.validate urlParse = some ErrApplicationRequired) ∧
    (∀ app err, c.Application = some app → app.validate = some err →
      c.validate urlParse = some err) ∧
    (∀ app, c.Application = some app → app.validate = none → c.Endpoint = "" →
      c.validate urlParse = some ErrEndpointRequired) ∧
    (∀ app e, c.Application = some app → app.validate = none → c.Endpoint ≠ "" →
      urlParse c.Endpoint = some e →
      ∃ err, c.validate urlParse = some err ∧ err.Is ErrInvalidEndpoint = true ∧
        err.Is e = true ∧ err = .wrap2 ErrInvalidEndpoint e) ∧
    (∀ app, c.Application = some app → app.validate = none → c.Endpoint ≠ "" →
      urlParse c.Endpoint = none → c.Username = "" →
      c.validate urlParse = some ErrUsernameRequired) ∧
    (∀ app, c.Application = some app → app.validate = none → c.Endpoint ≠ "" →
      urlParse c.Endpoint = none → c.Username ≠ "" → c.Password = "" →
      c.validate urlParse = some ErrPasswordRequired) ∧
    (∀ app, c.Application = some app → app.validate = none → c.Endpoint ≠ "" →
      urlParse c.Endpoint = none → c.Username ≠ "" → c.Password ≠ "" →
      c.validate urlParse = none) ∧
    (c.Application = none → c.Endpoint = "" →
      c.validate urlParse = some ErrApplicationRequired ∧
      c.validate urlParse ≠ some ErrEndpointRequired) := by
  refine ⟨?_, ?_, ?_, ?_, ?_, ?_, ?_, ?_⟩
  · intro h
    simp [Config.validate, h]
  · intro app err h hv
    simp [Config.validate, h, hv]
  · intro app h hv he
    simp [Config.validate, h, hv, he]
  · intro app e h hv he hp
    refine ⟨.wrap2 ErrInvalidEndpoint e, ?_, Error.wrap2_Is_outer _ _,
      Error.wrap2_Is_inner _ _, rfl⟩
    simp [Config.validate, h, hv, he, hp]
  · intro app h hv he hp hu
    simp [Config.validate, h, hv, he, hp, hu]
  · intro app h hv he hp hu hw
    simp [Config.validate, h, hv, he, hp, hu, hw]
  · intro app h hv he hp hu hw
    simp [Config.validate, h, hv, he, hp, hu, hw]
  · intro h _
    have hv : c.validate urlParse = some ErrApplicationRequired := by
      simp [Config.validate, h]
    refine ⟨hv, ?_⟩
    rw [hv]
    decide

/-- C1 at concrete Configs: nil Application with empty Endpoint, empty Endpoint alone, and
an Endpoint without a scheme. -/
theorem validate_first_failing_check_witness :
    (testConfig none "" "u" "p").validate sampleParse = some ErrApplicationRequired ∧
    (testConfig (some testApp) "" "u" "p").validate sampleParse = some ErrEndpointRequired ∧
    (testConfig (some testApp) "https://example.com" "u" "").validate sampleParse
      = some ErrPasswordRequired :=
  ⟨(validate_first_failing_check sampleParse (testConfig none "" "u" "p")).1 rfl,
   (validate_first_failing_check sampleParse
      (testConfig (some testApp) "" "u" "p")).2.2.1 testApp rfl (by decide) rfl,
   (validate_first_failing_check sampleParse
      (testConfig (some testApp) "https://example.com" "u" "")).2.2.2.2.2.1 testApp rfl
      (by decide) (by decide) (by decide) (by decide) rfl⟩

/-! ## Field by field: what `init` does -/

theorem Config.init_eq (c : Config) :
    c.init =
      { Application := if c.Application = none then some DefaultApplication else c.Application
        Logger := if c.Logger = none ∧ c.Debug = true then some Logger.stderrStd else c.Logger
        Endpoint := c.Endpoint
        Username := c.Username
        Password := c.Password
        MaxRetries := if c.MaxRetries < 1 then DefaultMaxRetries else c.MaxRetries
        Timeout := if c.Timeout < 1 then DefaultTimeout else c.Timeout
        Debug := c.Debug } := by
  by_cases h1 : c.Application = none <;> by_cases h2 : c.MaxRetries < 1 <;>
    by_cases h3 : c.Timeout < 1 <;> by_cases h4 : (c.Logger = none ∧ c.Debug = true) <;>
    simp [Config.init, h1, h2, h3, h4]

theorem Config.init_Application (c : Config) :
    c.init.Application = if c.Application = none then some DefaultApplication
      else c.Application := by
  rw [Config.init_eq]

theorem Config.init_MaxRetries (c : Config) :
    c.init.MaxRetries = if c.MaxRetries < 1 then DefaultMaxRetries else c.MaxRetries := by
  rw [Config.init_eq]

theorem Config.init_Timeout (c : Config) :
    c.init.Timeout = if c.Timeout < 1 then DefaultTimeout else c.Timeout := by
  rw [Config.init_eq]

theorem Config.init_Logger (c : Config) :
    c.init.Logger = if c.Logger = none ∧ c.Debug = true then some Logger.stderrStd
      else c.Logger := by
  rw [Config.init_eq]

theorem Config.init_Endpoint (c : Config) : c.init.Endpoint = c.Endpoint := by
  rw [Config.init_eq]

theorem Config.init_Username (c : Config) : c.init.Username = c.Username := by
  rw [Config.init_eq]

theorem Config.init_Password (c : Config) : c.init.Password = c.Password := by
  rw [Config.init_eq]

theorem Config.init_Debug (c : Config) : c.init.Debug = c.Debug := by
  rw [Config.init_eq]

/-! ## C2: `NewApplication` -/

/-- C2: `NewApplication(name, version, contact)` fails exactly when one of the three is
empty; the error then wraps `ErrInvalidApplication` and the error of the first empty field
in the order name, version, contact, and no Application is returned; otherwise the
Application with exactly these three fields is returned without error. -/
theorem NewApplication_fails_iff_empty_field (name version contact : String) :
    ((NewApplication name version contact).2 ≠ none ↔
      (name = "" ∨ version = "" ∨ contact = "")) ∧
    (name = "" → NewApplication name version contact
      = (none, some (.wrap2 ErrInvalidApplication ErrApplicationNameRequired))) ∧
    (name ≠ "" → version = "" → NewApplication name version contact
      = (none, some (.wrap2 ErrInvalidApplication ErrApplicationVersionRequired))) ∧
    (name ≠ "" → version ≠ "" → contact = "" → NewApplication name version contact
      = (none, some (.wrap2 ErrInvalidApplication ErrApplicationContactRequired))) ∧
    (∀ err, (NewApplication name version contact).2 = some err →
      (NewApplication name version contact).1 = none ∧
      err.Is ErrInvalidApplication = true ∧
      (err.Is ErrApplicationNameRequired = true ∨
        err.Is ErrApplicationVersionRequired = true ∨
        err.Is ErrApplicationContactRequired = true)) ∧
    (name ≠ "" → version ≠ "" → contact ≠ "" → NewApplication name version contact
      = (some { Name := name, Version := version, Contact := contact }, none)) := by
  by_cases hn : name = ""
  · simp [NewApplication, Application.validate, hn, Error.wrap2_Is_outer,
      Error.wrap2_Is_inner]
  · by_cases hv : version = ""
    · simp [NewApplication, Application.validate, hn, hv, Error.wrap2_Is_outer,
        Error.wrap2_Is_inner]
    · by_cases hc : contact = ""
      · simp [NewApplication, Application.validate, hn, hv, hc, Error.wrap2_Is_outer,
          Error.wrap2_Is_inner]
      · simp [NewApplication, Application.validate, hn, hv, hc]

/-- C2 on the inputs of the package tests: a missing version, and a valid application. -/
theorem NewApplication_fails_iff_empty_field_witness :
    NewApplication "WordPress" "" "https://wordpress.org/"
      = (none, some (.wrap2 ErrInvalidApplication ErrApplicationVersionRequired)) ∧
    NewApplication "WordPress" "5.4.1" "https://wordpress.org/"
      = (some { Name := "WordPress", Version := "5.4.1", Contact := "https://wordpress.org/" },
          none) :=
  ⟨(NewApplication_fails_iff_empty_field "WordPress" "" "https://wordpress.org/").2.2.1
      (by decide) rfl,
   (NewApplication_fails_iff_empty_field "WordPress" "5.4.1"
      "https://wordpress.org/").2.2.2.2.2 (by decide) (by decide) (by decide)⟩

/-! ## C3: `Application.UserAgent` -/

/-- C3: `a.UserAgent()` is nil exactly when `a` fails validation, that is when its Name,
Version or Contact is empty; otherwise it has Token `a.Name`, Version `a.Version` and the
one-element Comment list holding `a.Contact`. -/
theorem UserAgent_nil_iff_invalid (a : Application) :
    (a.UserAgent = none ↔ a.validate ≠ none) ∧
    (a.validate ≠ none ↔ (a.Name = "" ∨ a.Version = "" ∨ a.Contact = "")) ∧
    (a.validate = none →
      a.UserAgent = some { Token := a.Name, Version := a.Version, Comment := [a.Contact] }) := by
  refine ⟨?_, ?_, ?_⟩
  · unfold Application.UserAgent
    cases h : a.validate <;> simp
  · rw [Ne, Application.validate_passes_iff_fields]
    tauto
  · intro h
    simp [Application.UserAgent, h]

/-- C3 on the example of the specification. -/
theorem UserAgent_nil_iff_invalid_witness :
    Application.UserAgent { Name := "WP", Version := "1.0.0", Contact := "https://x" }
      = some { Token := "WP", Version := "1.0.0", Comment := ["https://x"] } :=
  (UserAgent_nil_iff_invalid { Name := "WP", Version := "1.0.0", Contact := "https://x" }).2.2
    (by decide)

/-! ## C4: `NewClient` -/

/-- C4: `NewClient(nil)` fails with `ErrConfigRequired`.  For a non-nil Config, `NewClient`
runs `init` and then `validate` on it: when `validate` accepts the defaulted Config, a
Client holding that Config is returned without error, and only then; when `validate`
returns an error, no Client is returned and the error is that very error. -/
theorem NewClient_init_then_validate (urlParse : String → Option Error) (c : Config) :
    NewClient urlParse none = (none, .returned none (some ErrConfigRequired)) ∧
    (NewClient urlParse (some c)).1 = some c.init ∧
    (∀ err, c.init.validate urlParse = some err →
      (NewClient urlParse (some c)).2 = .returned none (some err)) ∧
    (c.init.validate urlParse = none →
      ∃ cl, (NewClient urlParse (some c)).2 = .returned (some cl) none ∧
        cl.cfg = some c.init) ∧
    ((∃ cl, (NewClient urlParse (some c)).2 = .returned (some cl) none) ↔
      c.init.validate urlParse = none) := by
  have hnone : ∀ app, c.init.Application = some app → c.init.validate urlParse = none →
      (NewClient urlParse (some c)).2 = .returned (some
        { httpc := { RateLimiter := { limit := 2, burst := 1 }, RetryPolicy := .default,
                     UserAgent := app.UserAgent },
          cfg := some c.init }) none := by
    intro app ha hv
    simp [NewClient, hv, ha]
  have hsome : ∀ err, c.init.validate urlParse = some err →
      (NewClient urlParse (some c)).2 = .returned none (some err) := by
    intro err hv
    simp [NewClient, hv]
  have hfst : (NewClient urlParse (some c)).1 = some c.init := by
    cases hv : c.init.validate urlParse with
    | some err => simp [NewClient, hv]
    | none => cases ha : c.init.Application <;> simp [NewClient, hv, ha]
  have hok : c.init.validate urlParse = none →
      ∃ cl, (NewClient urlParse (some c)).2 = .returned (some cl) none ∧
        cl.cfg = some c.init := by
    intro hv
    cases ha : c.init.Application with
    | none => simp [Config.validate, ha] at hv
    | some app => exact ⟨_, hnone app ha hv, rfl⟩
  refine ⟨rfl, hfst, hsome, hok, ?_, ?_⟩
  · rintro ⟨cl, hcl⟩
    cases hv : c.init.validate urlParse with
    | none => rfl
    | some err =>
      rw [hsome err hv] at hcl
      cases hcl
  · intro hv
    obtain ⟨cl, hcl, _⟩ := hok hv
    exact ⟨cl, hcl⟩

/-- C4 at concrete Configs: one that `init` makes valid, and one with an empty Endpoint. -/
theorem NewClient_init_then_validate_witness :
    (∃ cl, (NewClient sampleParse (some (testConfig none "https://example.com" "u" "p"))).2
        = .returned (some cl) none ∧
      cl.cfg = some (testConfig none "https://example.com" "u" "p").init) ∧
    (NewClient sampleParse (some (testConfig none "" "u" "p"))).2
      = .returned none (some ErrEndpointRequired) :=
  ⟨(NewClient_init_then_validate sampleParse
      (testConfig none "https://example.com" "u" "p")).2.2.2.1 (by decide),
   (NewClient_init_then_validate sampleParse (testConfig none "" "u" "p")).2.2.1
      ErrEndpointRequired (by decide)⟩

/-! ## C5: `NewConfig` -/

/-- C5: `NewConfig` fails exactly when `validate` fails on the Config built from the four
arguments with MaxRetries 3, Timeout 60 seconds and Debug off, and then returns that error
and no Config; it does not default the Application, so a nil Application gives
`ErrApplicationRequired` whatever the other arguments are; on success the returned Config
has the four arguments as fields, MaxRetries 3, Timeout 60 seconds and Debug false. -/
theorem NewConfig_validates_built_config (urlParse : String → Option Error)
    (app : Option Application) (endpoint username password : String) :
    let built : Config :=
      { Application := app, Logger := none, Endpoint := endpoint, Username := username,
        Password := password, MaxRetries := 3, Timeout := 60000000000, Debug := false }
    (∀ err, built.validate urlParse = some err →
      NewConfig urlParse app endpoint username password = (none, some err)) ∧
    (built.validate urlParse = none →
      NewConfig urlParse app endpoint username password = (some built, none)) ∧
    ((NewConfig urlParse app endpoint username password).2 ≠ none ↔
      built.validate urlParse ≠ none) ∧
    (app = none → NewConfig urlParse app endpoint username password
      = (none, some ErrApplicationRequired)) ∧
    (∀ cfg, (NewConfig urlParse app endpoint username password).1 = some cfg →
      (NewConfig urlParse app endpoint username password).2 = none ∧
      cfg.Application = app ∧ cfg.Endpoint = endpoint ∧ cfg.Username = username ∧
      cfg.Password = password ∧ cfg.MaxRetries = 3 ∧ cfg.Timeout = 60 * 1000000000 ∧
      cfg.Debug = false) := by
  intro built
  have hb : NewConfig urlParse app endpoint username password
      = match built.validate urlParse with
        | some err => (none, some err)
        | none => (some built, none) := rfl
  refine ⟨?_, ?_, ?_, ?_, ?_⟩
  · intro err hv
    rw [hb, hv]
  · intro hv
    rw [hb, hv]
  · rw [hb]
    cases built.validate urlParse <;> simp
  · intro ha
    have hv : built.validate urlParse = some ErrApplicationRequired := by
      simp [built, Config.validate, ha]
    rw [hb, hv]
  · intro cfg hcfg
    rw [hb] at hcfg ⊢
    cases hv : built.validate urlParse with
    | some err => simp [hv] at hcfg
    | none =>
      simp only [hv, Option.some.injEq] at hcfg
      subst hcfg
      simp [built]

/-- C5 on the valid Config of the package tests and with a nil Application. -/
theorem NewConfig_validates_built_config_witness :
    NewConfig sampleParse (some testApp) "https://example.com" "username" "password"
      = (some { Application := some testApp, Logger := none,
                Endpoint := "https://example.com", Username := "username",
                Password := "password", MaxRetries := 3, Timeout := 60000000000,
                Debug := false }, none) ∧
    NewConfig sampleParse none "https://example.com" "username" "password"
      = (none, some ErrApplicationRequired) :=
  ⟨(NewConfig_validates_built_config sampleParse (some testApp) "https://example.com"
      "username" "password").2.1 (by decide),
   (NewConfig_validates_built_config sampleParse none "https://example.com"
      "username" "password").2.2.2.1 rfl⟩

/-! ## C6: the numeric defaults of `init` -/

/-- C6: after `init`, MaxRetries is 3 if it was below 1 (negative values included) and is
unchanged otherwise; Timeout is 60 seconds if it was below 1 nanosecond (negative durations
included) and is unchanged otherwise. -/
theorem init_fills_retries_and_timeout (c : Config) :
    (c.MaxRetries < 1 → c.init.MaxRetries = 3) ∧
    (1 ≤ c.MaxRetries → c.init.MaxRetries = c.MaxRetries) ∧
    (c.Timeout < 1 → c.init.Timeout = 60 * 1000000000) ∧
    (1 ≤ c.Timeout → c.init.Timeout = c.Timeout) := by
  refine ⟨?_, ?_, ?_, ?_⟩
  · intro h
    rw [Config.init_MaxRetries, if_pos h]
    rfl
  · intro h
    rw [Config.init_MaxRetries, if_neg (not_lt.mpr h)]
  · intro h
    rw [Config.init_Timeout, if_pos h]
    rfl
  · intro h
    rw [Config.init_Timeout, if_neg (not_lt.mpr h)]

/-- C6 with a negative MaxRetries and a Timeout of one nanosecond. -/
theorem init_fills_retries_and_timeout_witness :
    (numericConfig (-5) 1).init.MaxRetries = 3 ∧ (numericConfig (-5) 1).init.Timeout = 1 :=
  ⟨(init_fills_retries_and_timeout (numericConfig (-5) 1)).1 (by decide),
   (init_fills_retries_and_timeout (numericConfig (-5) 1)).2.2.2 (by decide)⟩

/-! ## C7: the default Application -/

/-- C7: for a Config whose Application is nil, after `init` the Application is present and
equals `DefaultApplication()`: Name "wordpress-go", Version "0.1.0" and Contact the package
URL constant. -/
theorem init_nil_application_is_default (c : Config) (h : c.Application = none) :
    c.init.Application = some DefaultApplication ∧
    ∃ app, c.init.Application = some app ∧
      app.Name = DefaultApplication.Name ∧ app.Version = DefaultApplication.Version ∧
      app.Contact = DefaultApplication.Contact ∧
      app.Name = "wordpress-go" ∧ app.Version = "0.1.0" ∧ app.Contact = build.URL ∧
      build.URL = "https:///git.sr.ht/~jamesponddotco/wordpress-go" := by
  have hd : c.init.Application = some DefaultApplication := by
    rw [Config.init_Application, if_pos h]
  exact ⟨hd, DefaultApplication, hd, rfl, rfl, rfl, rfl, rfl, rfl, rfl⟩

/-- C7 on the input of the package test `TestConfig_Init`. -/
theorem init_nil_application_is_default_witness :
    (testConfig none "https://example.com" "testuser" "testpassword").init.Application
      = some DefaultApplication :=
  (init_nil_application_is_default
    (testConfig none "https://example.com" "testuser" "testpassword") rfl).1

/-! ## C8: `init` is idempotent -/

/-- C8: applying `init` twice gives the same Config, in every field, as applying it once. -/
theorem init_idempotent (c : Config) : c.init.init = c.init := by
  rw [Config.init_eq c.init]
  rw [Config.init_eq c]
  by_cases h1 : c.Application = none <;> by_cases h2 : c.MaxRetries < 1 <;>
    by_cases h3 : c.Timeout < 1 <;> by_cases h4 : (c.Logger = none ∧ c.Debug = true) <;>
    simp [h1, h2, h3, h4, DefaultMaxRetries, DefaultTimeout, Second]

/-! ## When `validate` accepts -/

theorem Config.validate_eq_none_iff (urlParse : String → Option Error) (c : Config) :
    c.validate urlParse = none ↔
      ∃ app, c.Application = some app ∧ app.validate = none ∧ c.Endpoint ≠ "" ∧
        urlParse c.Endpoint = none ∧ c.Username ≠ "" ∧ c.Password ≠ "" := by
  unfold Config.validate
  cases ha : c.Application with
  | none => simp
  | some app =>
    cases hv : app.validate with
    | some err => simp [hv]
    | none =>
      by_cases he : c.Endpoint = ""
      · simp [hv, he]
      · cases hp : urlParse c.Endpoint with
        | some err => simp [hv, he, hp]
        | none =>
          by_cases hu : c.Username = ""
          · simp [hv, he, hp, hu]
          · by_cases hw : c.Password = "" <;> simp [hv, he, hp, hu, hw]

theorem Config.init_one_le_MaxRetries (c : Config) : 1 ≤ c.init.MaxRetries := by
  rw [Config.init_MaxRetries]
  split_ifs with h
  · decide
  · exact not_lt.mp h

theorem Config.init_one_le_Timeout (c : Config) : 1 ≤ c.init.Timeout := by
  rw [Config.init_Timeout]
  split_ifs with h
  · decide
  · exact not_lt.mp h

theorem Config.init_debug_logger (c : Config) (h : c.init.Debug = true) :
    c.init.Logger ≠ none := by
  rw [Config.init_Debug] at h
  rw [Config.init_Logger]
  by_cases hl : c.Logger = none
  · simp [hl, h]
  · simp [hl]

/-! ## No nil dereference in `do` and `request` -/

theorem printfOn_of_logger (cfg : Config) (msg : LogMsg)
    (h : ∃ l, cfg.Logger = some l ∧ l.callable = true) :
    ∃ evs, printfOn cfg msg = some evs := by
  obtain ⟨l, hl, hcall⟩ := h
  exact ⟨[.printf l msg], by simp [printfOn, hl, hcall]⟩

theorem printfOn_typedNil (cfg : Config) (msg : LogMsg) (h : cfg.Logger = some .typedNil) :
    printfOn cfg msg = none := by
  simp [printfOn, h, Logger.callable]

theorem Config.canLog_of_not_typedNil (cfg : Config)
    (hl : cfg.Debug = true → cfg.Logger ≠ none) (ht : cfg.Logger ≠ some .typedNil) :
    cfg.canLog := by
  intro hd
  cases hlog : cfg.Logger with
  | none => exact absurd hlog (hl hd)
  | some l =>
    refine ⟨l, rfl, ?_⟩
    cases l with
    | supplied tag => rfl
    | stderrStd => rfl
    | typedNil => exact absurd hlog ht

theorem doAfterDefer_ne_nilDeref (cfg : Config) (ret : RawResponse)
    (h : cfg.canLog) :
    (doAfterDefer cfg ret).2 ≠ .nilDeref := by
  unfold doAfterDefer
  by_cases hd : cfg.Debug = true
  · cases hdump : ret.dump with
    | error err => simp [hd, hdump]
    | ok dump =>
      obtain ⟨evs, hevs⟩ := printfOn_of_logger cfg (.dump dump) (h hd)
      cases hr : ret.readAll <;> simp [hd, hdump, hevs, hr]
  · cases hr : ret.readAll <;> simp [hd, hr]

theorem deferredDrain_ne_nilDeref (ret : RawResponse) (r : List Event × Outcome Response)
    (h : r.2 ≠ .nilDeref) : (deferredDrain ret r).2 ≠ .nilDeref := by
  unfold deferredDrain
  cases ret.drain <;> simp [h]

theorem Client.do_ne_nilDeref (transport : Transport) (c : Client) (req : Request)
    (cfg : Config) (hc : c.cfg = some cfg) (h : cfg.canLog) :
    (c.do transport req).2 ≠ .nilDeref := by
  have key : ∀ evs : List Event,
      (match transport req with
        | .error err => (evs ++ [Event.send req],
            (Outcome.returned none (some (Error.wrap1 err)) : Outcome Response))
        | .ok ret =>
          (evs ++ [Event.send req] ++ (deferredDrain ret (doAfterDefer cfg ret)).1,
            (deferredDrain ret (doAfterDefer cfg ret)).2)).2 ≠ .nilDeref := by
    intro evs
    cases transport req with
    | error err => simp
    | ok ret => exact deferredDrain_ne_nilDeref ret _ (doAfterDefer_ne_nilDeref cfg ret h)
  unfold Client.do
  rw [hc]
  by_cases hd : cfg.Debug = true
  · obtain ⟨evs, hevs⟩ := printfOn_of_logger cfg (.request req.Method req.URL) (h hd)
    simp only [hd, if_true, hevs]
    exact key evs
  · simp only [hd]
    exact key []

theorem Client.requestBuild_ne_nilDeref (libs : RequestLibs) (c : Client)
    (method uri : String) (headers : Option HeaderMap)
    (cfg : Config) (hc : c.cfg = some cfg) (h : cfg.canLog) :
    (c.requestBuild libs method uri headers).2 ≠ .nilDeref := by
  unfold Client.requestBuild
  rw [hc]
  cases hn : libs.newRequest method uri with
  | error err => simp
  | ok req0 =>
    by_cases hd : cfg.Debug = true
    · simp only [hd, if_true]
      cases hdump : libs.dumpRequest _ with
      | error err => simp
      | ok dump =>
        obtain ⟨evs, hevs⟩ := printfOn_of_logger cfg (.dump dump) (h hd)
        simp [hevs]
    · simp [hd]

theorem Client.request_ne_nilDeref (libs : RequestLibs) (c : Client)
    (method uri : String) (headers : Option HeaderMap)
    (cfg : Config) (app : Application) (ua : UserAgent) (hc : c.cfg = some cfg)
    (ha : cfg.Application = some app) (hu : app.UserAgent = some ua)
    (h : cfg.canLog) :
    (c.request libs method uri headers).2.2 ≠ .nilDeref := by
  have hs : c.userAgentString libs = some (libs.uaString ua) := by
    simp [Client.userAgentString, hc, ha, hu]
  unfold Client.request
  rw [hs]
  split_ifs
  · exact Client.requestBuild_ne_nilDeref libs c method uri headers cfg hc h
  · cases headers with
    | none => simp
    | some m => exact Client.requestBuild_ne_nilDeref libs c method uri _ cfg hc h

/-! ## C9: what holds of a Client that `NewClient` returns -/

/-- C9 as stated fails: from a valid Config with Debug on whose Logger is an interface
value holding a nil pointer, `NewClient` returns a Client without error whose Config has
Debug on and a Logger that is not nil, and yet the Logger calls of `do` and of `request`
on that Client end in a nil dereference. -/
theorem NewClient_logger_nil_pointer_counterexample :
    NewClient sampleParse (some typedNilConfig)
      = (some typedNilConfig, .returned (some typedNilClient) none) ∧
    (∃ c, typedNilClient.cfg = some c ∧ c.validate sampleParse = none ∧
      c.Debug = true ∧ c.Logger ≠ none) ∧
    (typedNilClient.do okTransport getRequest).2 = .nilDeref ∧
    (typedNilClient.request sampleLibs "GET" "https://example.com/wp-json"
      (some acceptHeaders)).2.2 = .nilDeref := by
  refine ⟨by decide, ⟨typedNilConfig, rfl, by decide, rfl, by decide⟩, by decide, by decide⟩

/-- C9, amended: a Client returned by `NewClient` comes without error and holds a non-nil
Config, the one behind the argument pointer, which at that moment passes `validate`
(Application present with non-empty Name, Version and Contact, Endpoint non-empty and
parseable, Username and Password non-empty), has MaxRetries and Timeout at least 1, has an
Application whose `UserAgent()` is non-nil, and has a Logger that is not nil whenever Debug
is on; so the User-Agent expression of `request` never meets a nil value, and neither
`request` nor `do` on that Client ends in a nil dereference unless the Logger is an
interface value holding a nil pointer, in which case with Debug on `do` does. -/
theorem NewClient_client_invariants (urlParse : String → Option Error)
    (cfg : Option Config) (cl : Client) (err : Option Error)
    (h : (NewClient urlParse cfg).2 = .returned (some cl) err) :
    err = none ∧
    ∃ c app ua, cl.cfg = some c ∧ (NewClient urlParse cfg).1 = some c ∧
      c.validate urlParse = none ∧
      c.Application = some app ∧ app.Name ≠ "" ∧ app.Version ≠ "" ∧ app.Contact ≠ "" ∧
      c.Endpoint ≠ "" ∧ urlParse c.Endpoint = none ∧ c.Username ≠ "" ∧ c.Password ≠ "" ∧
      1 ≤ c.MaxRetries ∧ 1 ≤ c.Timeout ∧
      app.UserAgent = some ua ∧ cl.httpc.UserAgent = some ua ∧
      (c.Debug = true → c.Logger ≠ none) ∧
      (∀ libs, cl.userAgentString libs = some (libs.uaString ua)) ∧
      (c.Logger ≠ some .typedNil →
        (∀ libs method uri headers, (cl.request libs method uri headers).2.2 ≠ .nilDeref) ∧
        (∀ transport req, (cl.do transport req).2 ≠ .nilDeref)) ∧
      (c.Logger = some .typedNil → c.Debug = true →
        ∀ transport req, (cl.do transport req).2 = .nilDeref) := by
  cases cfg with
  | none => simp [NewClient] at h
  | some c0 =>
    cases hv : c0.init.validate urlParse with
    | some e => simp [NewClient, hv] at h
    | none =>
      obtain ⟨app, ha, hav, he, hp, hu, hw⟩ := (Config.validate_eq_none_iff urlParse _).mp hv
      obtain ⟨hn, hver, hcon⟩ := (Application.validate_passes_iff_fields app).mp hav
      have hua : app.UserAgent
          = some { Token := app.Name, Version := app.Version, Comment := [app.Contact] } := by
        simp [Application.UserAgent, hav]
      simp only [NewClient, hv, ha, Outcome.returned.injEq, Option.some.injEq] at h
      obtain ⟨hcl, herr⟩ := h
      have hcfg : cl.cfg = some c0.init := by rw [← hcl]
      have hlog : c0.init.Debug = true → c0.init.Logger ≠ none := Config.init_debug_logger c0
      refine ⟨herr.symm, c0.init, app, _, hcfg, ?_, hv, ha, hn, hver, hcon, he, hp, hu, hw,
        Config.init_one_le_MaxRetries c0, Config.init_one_le_Timeout c0, hua, ?_, hlog, ?_,
        ?_, ?_⟩
      · simp [NewClient, hv, ha]
      · rw [← hcl, hua]
      · intro libs
        simp [Client.userAgentString, hcfg, ha, hua]
      · intro ht
        have hcan : c0.init.canLog := Config.canLog_of_not_typedNil c0.init hlog ht
        constructor
        · intro libs method uri headers
          exact Client.request_ne_nilDeref libs cl method uri headers c0.init app _ hcfg ha
            hua hcan
        · intro transport req
          exact Client.do_ne_nilDeref transport cl req c0.init hcfg hcan
      · intro ht hd transport req
        simp [Client.do, hcfg, hd, printfOn_typedNil c0.init _ ht]

/-- C9, amended, for the Client built from a Config with Debug on and nothing optional
set. -/
theorem NewClient_client_invariants_witness :
    (NewClient sampleParse (some debugConfig)).2 = .returned (some debugClient) none ∧
    (∃ c, debugClient.cfg = some c ∧ c.validate sampleParse = none ∧
      1 ≤ c.MaxRetries ∧ 1 ≤ c.Timeout ∧ (c.Debug = true → c.Logger ≠ none)) ∧
    (debugClient.do okTransport getRequest).2 ≠ .nilDeref ∧
    (debugClient.request sampleLibs "GET" "https://example.com/wp-json"
      (some acceptHeaders)).2.2 ≠ .nilDeref := by
  obtain ⟨_, c, _, _, h1, _, h2, _, _, _, _, _, _, _, _, h3, h4, _, _, h5, _, h6, _⟩ :=
    NewClient_client_invariants sampleParse (some debugConfig) debugClient none (by decide)
  have hc : c = { Application := some DefaultApplication, Logger := some .stderrStd,
                  Endpoint := "https://example.com", Username := "u", Password := "p",
                  MaxRetries := 3, Timeout := 60000000000, Debug := true } := by
    simp only [debugClient, Option.some.injEq] at h1
    exact h1.symm
  have hl : c.Logger ≠ some .typedNil := by
    rw [hc]
    decide
  exact ⟨by decide, ⟨c, h1, h2, h3, h4, h5⟩, (h6 hl).2 okTransport getRequest,
    (h6 hl).1 sampleLibs "GET" "https://example.com/wp-json" (some acceptHeaders)⟩

/-! ## C10: what `do` returns -/

theorem copyValues_eq (vs : List String) : copyValues vs = vs := by
  induction vs with
  | nil => rfl
  | cons v vs ih => simp [copyValues, ih]

theorem Header.Clone_eq (h : Header) : Header.Clone h = h := by
  induction h with
  | nil => rfl
  | cons kv rest ih =>
    obtain ⟨k, vv⟩ := kv
    simp [Header.Clone, copyValues_eq, ih]

/-- C10 as stated fails: with Debug off, a transport that returns a raw response with
status 200 whose body reads fully as the bytes of "ok", but whose drain-and-close fails,
makes `do` end the process through `log.Fatal` instead of returning a Response. -/
theorem do_returns_response_counterexample :
    (∃ cfg, plainClient.cfg = some cfg ∧ cfg.Debug = false) ∧
    closeFailTransport getRequest = .ok closeFailResponse ∧
    closeFailResponse.readAll = .ok [111, 107] ∧
    (plainClient.do closeFailTransport getRequest).2 = .fatal (.foreign "close failed") ∧
    ¬ ∃ resp err, (plainClient.do closeFailTransport getRequest).2 = .returned resp err := by
  refine ⟨⟨_, rfl, rfl⟩, rfl, rfl, by decide, ?_⟩
  rintro ⟨resp, err, h⟩
  have hf : (plainClient.do closeFailTransport getRequest).2
      = .fatal (.foreign "close failed") := by decide
  rw [hf] at h
  cases h

/-- C10, amended: with Debug off, if the transport returns an error `e` then `do` returns
no Response and an error wrapping `e`; if it returns a raw response with headers `h`,
status `s` and a body that reads fully as `b`, and draining and closing that response
succeeds, then `do` returns no error and the Response with Header `h`, Body `b` and
Status `s`; if draining fails with `err`, `do` does not return: `log.Fatal(err)` ends the
process. -/
theorem do_reflects_transport (transport : Transport) (c : Client) (req : Request)
    (cfg : Config) (hc : c.cfg = some cfg) (hd : cfg.Debug = false) :
    (∀ e, transport req = .error e →
      (c.do transport req).2 = .returned none (some (.wrap1 e)) ∧
      (Error.wrap1 e).Is e = true) ∧
    (∀ ret b, transport req = .ok ret → ret.readAll = .ok b → ret.drain = none →
      (c.do transport req).2
        = .returned (some { Header := ret.Header, Body := b, Status := ret.StatusCode })
            none) ∧
    (∀ ret b err, transport req = .ok ret → ret.readAll = .ok b → ret.drain = some err →
      (c.do transport req).2 = .fatal err) := by
  refine ⟨?_, ?_, ?_⟩
  · intro e ht
    refine ⟨?_, Error.wrap1_Is_inner e⟩
    simp [Client.do, hc, hd, ht]
  · intro ret b ht hr hdr
    simp [Client.do, hc, hd, ht, deferredDrain, doAfterDefer, hr, hdr, Header.Clone_eq]
  · intro ret b err ht hr hdr
    simp [Client.do, hc, hd, ht, deferredDrain, hdr]

/-- C10, amended, on a transport that answers status 200 with body "ok", and on one that
fails. -/
theorem do_reflects_transport_witness :
    (plainClient.do okTransport getRequest).2
      = .returned (some { Header := [("Content-Type", ["text/plain"])],
                          Body := [111, 107], Status := 200 }) none ∧
    (plainClient.do failTransport getRequest).2
      = .returned none (some (.wrap1 (.foreign "connection refused"))) :=
  ⟨(do_reflects_transport okTransport plainClient getRequest _ rfl rfl).2.1
      okResponse [111, 107] rfl rfl rfl,
   ((do_reflects_transport failTransport plainClient getRequest _ rfl rfl).1
      (.foreign "connection refused") rfl).1⟩

/-! ## C12: the default Application is valid -/

/-- C12: `DefaultApplication()` is valid: its Name, Version and Contact are the build
constants and are not empty, `validate` returns nil on it, and its `UserAgent()` is
non-nil with Token "wordpress-go" and Version "0.1.0". -/
theorem DefaultApplication_valid :
    DefaultApplication.Name = build.Name ∧ DefaultApplication.Version = build.Version ∧
    DefaultApplication.Contact = build.URL ∧
    DefaultApplication.Name ≠ "" ∧ DefaultApplication.Version ≠ "" ∧
    DefaultApplication.Contact ≠ "" ∧
    DefaultApplication.validate = none ∧
    ∃ ua, DefaultApplication.UserAgent = some ua ∧ ua.Token = "wordpress-go" ∧
      ua.Version = "0.1.0" ∧ ua.Comment = [build.URL] := by
  refine ⟨rfl, rfl, rfl, by decide, by decide, by decide, by decide, ?_⟩
  exact ⟨{ Token := "wordpress-go", Version := "0.1.0", Comment := [build.URL] },
    by decide, rfl, rfl, rfl⟩

/-! ## C13: the Logger after `init` -/

/-- C13: `init` always yields a Config, and after it a Logger is there whenever Debug is
on, a Logger the caller supplied is kept whatever Debug is, and with Debug off and no
Logger supplied the Logger stays nil. -/
theorem init_logger_only_when_needed (c : Config) :
    (∃ c1, c.init = c1) ∧
    (c.init.Debug = true → c.init.Logger ≠ none) ∧
    (c.Debug = true → c.Logger = none → c.init.Logger = some .stderrStd) ∧
    (∀ l, c.Logger = some l → c.init.Logger = some l) ∧
    (c.Debug = false → c.Logger = none → c.init.Logger = none) := by
  refine ⟨⟨_, rfl⟩, Config.init_debug_logger c, ?_, ?_, ?_⟩
  · intro hd hl
    rw [Config.init_Logger]
    simp [hd, hl]
  · intro l hl
    rw [Config.init_Logger]
    simp [hl]
  · intro hd hl
    rw [Config.init_Logger]
    simp [hd, hl]

/-- C13 on a Config with Debug on and no Logger, and on one with a supplied Logger. -/
theorem init_logger_only_when_needed_witness :
    debugConfig.init.Logger = some .stderrStd ∧
    ({ debugConfig with Logger := some (.supplied 7), Debug := false } : Config).init.Logger
      = some (.supplied 7) :=
  ⟨(init_logger_only_when_needed debugConfig).2.2.1 rfl rfl,
   (init_logger_only_when_needed
      { debugConfig with Logger := some (.supplied 7), Debug := false }).2.2.2.1
      (.supplied 7) rfl⟩

/-! ## C14: the frame of `init` -/

/-- C14: `init` leaves Endpoint, Username, Password and Debug as they were; it changes
Application only when it was nil, MaxRetries only when it was below 1, Timeout only when
it was below 1, and Logger only when it was nil with Debug on. -/
theorem init_frame (c : Config) :
    c.init.Endpoint = c.Endpoint ∧ c.init.Username = c.Username ∧
    c.init.Password = c.Password ∧ c.init.Debug = c.Debug ∧
    (c.init.Application ≠ c.Application → c.Application = none) ∧
    (c.init.MaxRetries ≠ c.MaxRetries → c.MaxRetries < 1) ∧
    (c.init.Timeout ≠ c.Timeout → c.Timeout < 1) ∧
    (c.init.Logger ≠ c.Logger → c.Logger = none ∧ c.Debug = true) := by
  refine ⟨Config.init_Endpoint c, Config.init_Username c, Config.init_Password c,
    Config.init_Debug c, ?_, ?_, ?_, ?_⟩
  · rw [Config.init_Application]
    split_ifs with h
    · exact fun _ => h
    · exact fun hne => absurd rfl hne
  · rw [Config.init_MaxRetries]
    split_ifs with h
    · exact fun _ => h
    · exact fun hne => absurd rfl hne
  · rw [Config.init_Timeout]
    split_ifs with h
    · exact fun _ => h
    · exact fun hne => absurd rfl hne
  · rw [Config.init_Logger]
    split_ifs with h
    · exact fun _ => h
    · exact fun hne => absurd rfl hne

/-- C14 on a Config in which `init` changes the Logger and the Timeout. -/
theorem init_frame_witness :
    (debugConfig.Logger = none ∧ debugConfig.Debug = true) ∧ debugConfig.Timeout < 1 :=
  ⟨(init_frame debugConfig).2.2.2.2.2.2.2 (by decide),
   (init_frame debugConfig).2.2.2.2.2.2.1 (by decide)⟩

/-! ## C17: a Config made by `NewConfig` -/

theorem NewConfig_eq_some (urlParse : String → Option Error) (app : Option Application)
    (endpoint username password : String) (c : Config)
    (h : (NewConfig urlParse app endpoint username password).1 = some c) :
    c = { Application := app, Logger := none, Endpoint := endpoint, Username := username,
          Password := password, MaxRetries := DefaultMaxRetries, Timeout := DefaultTimeout,
          Debug := false } ∧
    c.validate urlParse = none := by
  unfold NewConfig at h
  simp only at h
  split at h
  · simp at h
  · rename_i hv
    simp only [Option.some.injEq] at h
    subst h
    exact ⟨rfl, hv⟩

/-- C17: a Config that `NewConfig` returns is a fixed point of `init`, with MaxRetries 3,
Timeout 60 seconds, Debug off and no Logger, and `NewClient` on it returns a Client
holding it and no error. -/
theorem NewConfig_fixed_point_of_init (urlParse : String → Option Error)
    (app : Option Application) (endpoint username password : String) (c : Config)
    (h : (NewConfig urlParse app endpoint username password).1 = some c) :
    c.init = c ∧
    c.Application = app ∧ c.Logger = none ∧ c.Endpoint = endpoint ∧
    c.Username = username ∧ c.Password = password ∧ c.MaxRetries = 3 ∧
    c.Timeout = 60 * 1000000000 ∧ c.Debug = false ∧
    ∃ cl, NewClient urlParse (some c) = (some c, .returned (some cl) none) ∧
      cl.cfg = some c := by
  obtain ⟨hc, hv⟩ := NewConfig_eq_some urlParse app endpoint username password c h
  obtain ⟨a, ha, hav, -⟩ := (Config.validate_eq_none_iff urlParse c).mp hv
  have hinit : c.init = c := by
    rw [Config.init_eq]
    subst hc
    simp only at ha
    simp [ha, DefaultMaxRetries, DefaultTimeout, Second]
  refine ⟨hinit, ?_, ?_, ?_, ?_, ?_, ?_, ?_, ?_, ?_⟩
  · rw [hc]
  · rw [hc]
  · rw [hc]
  · rw [hc]
  · rw [hc]
  · rw [hc]; rfl
  · rw [hc]; rfl
  · rw [hc]
  · refine ⟨{ httpc := { RateLimiter := { limit := 2, burst := 1 }, RetryPolicy := .default,
                         UserAgent := a.UserAgent },
              cfg := some c }, ?_, rfl⟩
    simp [NewClient, hinit, hv, ha]

/-- C17 on the Config `NewConfig` makes from the valid arguments of the package tests. -/
theorem NewConfig_fixed_point_of_init_witness :
    (numericConfig 3 60000000000).init = numericConfig 3 60000000000 ∧
    ∃ cl, NewClient sampleParse (some (numericConfig 3 60000000000))
        = (some (numericConfig 3 60000000000), .returned (some cl) none) ∧
      cl.cfg = some (numericConfig 3 60000000000) :=
  ⟨(NewConfig_fixed_point_of_init sampleParse (some testApp) "https://example.com"
      "testuser" "testpassword" (numericConfig 3 60000000000) (by decide)).1,
   (NewConfig_fixed_point_of_init sampleParse (some testApp) "https://example.com"
      "testuser" "testpassword" (numericConfig 3 60000000000)
      (by decide)).2.2.2.2.2.2.2.2.2⟩

/-! ## C18: `init` keeps an invalid Application -/

theorem Application.validate_error_shape (app : Application) (err : Error)
    (hv : app.validate = some err) :
    err = .wrap2 ErrInvalidApplication ErrApplicationNameRequired ∨
      err = .wrap2 ErrInvalidApplication ErrApplicationVersionRequired ∨
      err = .wrap2 ErrInvalidApplication ErrApplicationContactRequired := by
  unfold Application.validate at hv
  split_ifs at hv <;> simp_all

theorem validate_present_ne_required (urlParse : String → Option Error)
    (c : Config) (app : Application) (ha : c.Application = some app) :
    c.validate urlParse ≠ some ErrApplicationRequired := by
  cases hav : app.validate with
  | some e =>
    have hv : c.validate urlParse = some e := by simp [Config.validate, ha, hav]
    rw [hv]
    rcases app.validate_error_shape e hav with h | h | h <;> rw [h] <;>
      simp [ErrApplicationRequired]
  | none =>
    by_cases he : c.Endpoint = ""
    · simp [Config.validate, ha, hav, he, ErrEndpointRequired, ErrApplicationRequired]
    · cases hp : urlParse c.Endpoint with
      | some e => simp [Config.validate, ha, hav, he, hp, ErrApplicationRequired]
      | none =>
        by_cases hu : c.Username = ""
        · simp [Config.validate, ha, hav, he, hp, hu, ErrUsernameRequired,
            ErrApplicationRequired]
        · by_cases hw : c.Password = "" <;>
            simp [Config.validate, ha, hav, he, hp, hu, hw, ErrPasswordRequired,
              ErrApplicationRequired]

/-- C18: for a Config whose Application is non-nil, `init` leaves the Application as it
is, also when its Name, Version or Contact is empty; `NewClient` on such a Config with an
invalid Application returns no Client and the error of `Application.validate`, which wraps
`ErrInvalidApplication`, and the Application is not replaced by the default; and
`NewClient` returns `ErrApplicationRequired` for no non-nil Config. -/
theorem init_keeps_invalid_application (urlParse : String → Option Error) (c : Config) :
    (∀ app, c.Application = some app → c.init.Application = some app) ∧
    (∀ app err, c.Application = some app → app.validate = some err →
      NewClient urlParse (some c) = (some c.init, .returned none (some err)) ∧
      c.init.Application = some app ∧
      err.Is ErrInvalidApplication = true ∧
      (err = .wrap2 ErrInvalidApplication ErrApplicationNameRequired ∨
        err = .wrap2 ErrInvalidApplication ErrApplicationVersionRequired ∨
        err = .wrap2 ErrInvalidApplication ErrApplicationContactRequired)) ∧
    (∀ cl, (NewClient urlParse (some c)).2 ≠ .returned cl (some ErrApplicationRequired)) := by
  have hkeep : ∀ app, c.Application = some app → c.init.Application = some app := by
    intro app ha
    rw [Config.init_Application]
    simp [ha]
  have hshape := Application.validate_error_shape
  refine ⟨hkeep, ?_, ?_⟩
  · intro app err ha hv
    have hval : c.init.validate urlParse = some err := by
      simp [Config.validate, hkeep app ha, hv]
    refine ⟨?_, hkeep app ha, ?_, hshape app err hv⟩
    · simp [NewClient, hval]
    · rcases hshape app err hv with h | h | h <;> rw [h] <;> exact Error.wrap2_Is_outer _ _
  · intro cl hcl
    have happ : ∃ app, c.init.Application = some app := by
      rw [Config.init_Application]
      cases ha : c.Application with
      | none => exact ⟨DefaultApplication, by simp⟩
      | some app => exact ⟨app, by simp⟩
    obtain ⟨app, ha⟩ := happ
    cases hv : c.init.validate urlParse with
    | none =>
      simp [NewClient, hv, ha] at hcl
    | some err =>
      simp only [NewClient, hv, Outcome.returned.injEq, Option.some.injEq] at hcl
      obtain ⟨-, herr⟩ := hcl
      subst herr
      exact validate_present_ne_required urlParse c.init app ha hv

/-- C18 on the Config of the package test `TestConfig_Validate`, whose Application has an
empty Name. -/
theorem init_keeps_invalid_application_witness :
    NewClient sampleParse
      (some (testConfig (some { Name := "", Version := "1.0.0",
                                Contact := "https://example.com" })
        "https://example.com" "testuser" "testpassword"))
      = (some (testConfig (some { Name := "", Version := "1.0.0",
                                  Contact := "https://example.com" })
          "https://example.com" "testuser" "testpassword").init,
         .returned none (some (.wrap2 ErrInvalidApplication ErrApplicationNameRequired))) :=
  ((init_keeps_invalid_application sampleParse
      (testConfig (some { Name := "", Version := "1.0.0", Contact := "https://example.com" })
        "https://example.com" "testuser" "testpassword")).2.1
      { Name := "", Version := "1.0.0", Contact := "https://example.com" }
      (.wrap2 ErrInvalidApplication ErrApplicationNameRequired) rfl (by decide)).1

/-! ## C15: the deferred drain of `do` -/

theorem printfOn_eq_some (cfg : Config) (msg : LogMsg) (evs : List Event)
    (h : printfOn cfg msg = some evs) : ∃ l, evs = [.printf l msg] := by
  unfold printfOn at h
  cases hl : cfg.Logger with
  | none => simp [hl] at h
  | some l =>
    by_cases hcall : l.callable = true
    · simp only [hl, hcall, if_true, Option.some.injEq] at h
      exact ⟨l, h.symm⟩
    · simp [hl, hcall] at h

theorem doAfterDefer_count_drain (cfg : Config) (ret : RawResponse) :
    (doAfterDefer cfg ret).1.count .drain = 0 := by
  unfold doAfterDefer
  by_cases hd : cfg.Debug = true
  · cases hdump : ret.dump with
    | error err => simp [hd, hdump]
    | ok dump =>
      cases hp : printfOn cfg (.dump dump) with
      | none => simp [hd, hdump, hp]
      | some evs =>
        obtain ⟨l, rfl⟩ := printfOn_eq_some cfg _ evs hp
        cases hr : ret.readAll <;> simp [hd, hdump, hp, hr]
  · cases hr : ret.readAll <;> simp [hd, hr]

theorem deferredDrain_count_drain (ret : RawResponse) (r : List Event × Outcome Response)
    (h : r.1.count .drain = 0) : (deferredDrain ret r).1.count .drain = 1 := by
  unfold deferredDrain
  cases ret.drain <;> simp [List.count_append, h]

theorem deferredDrain_returned (ret : RawResponse) (r : List Event × Outcome Response)
    (val : Option Response) (err : Option Error)
    (h : (deferredDrain ret r).2 = .returned val err) :
    (deferredDrain ret r).1 = r.1 ++ [.drain] ∧ r.2 = .returned val err := by
  unfold deferredDrain at h ⊢
  cases hdr : ret.drain with
  | some e => simp [hdr] at h
  | none =>
    simp only [hdr] at h
    exact ⟨rfl, h⟩

/-- The shape of a call of `do`: either it panics before the transport is called, or the
transport is called after the request has been logged. -/
theorem Client.do_shape (transport : Transport) (c : Client) (req : Request) :
    c.do transport req = ([], .nilDeref) ∨
    ∃ cfg evs, c.cfg = some cfg ∧ evs.count .drain = 0 ∧
      c.do transport req =
        match transport req with
        | .error err => (evs ++ [.send req], .returned none (some (.wrap1 err)))
        | .ok ret =>
          (evs ++ [.send req] ++ (deferredDrain ret (doAfterDefer cfg ret)).1,
            (deferredDrain ret (doAfterDefer cfg ret)).2) := by
  cases hc : c.cfg with
  | none =>
    left
    simp [Client.do, hc]
  | some cfg =>
    by_cases hd : cfg.Debug = true
    · cases hp : printfOn cfg (.request req.Method req.URL) with
      | none =>
        left
        simp [Client.do, hc, hd, hp]
      | some evs =>
        right
        obtain ⟨l, rfl⟩ := printfOn_eq_some cfg _ evs hp
        refine ⟨cfg, [.printf l (.request req.Method req.URL)], rfl, by simp, ?_⟩
        simp only [Client.do, hc, hd, if_true, hp]
    · right
      refine ⟨cfg, [], rfl, by simp, ?_⟩
      simp only [Client.do, hc, hd]
      rfl

/-- C15: in the trace of effects of `do`, when the transport returns an error no drain
step occurs; when the transport is called and returns a raw response the drain-and-close
step occurs exactly once, and whenever `do` then returns (a Response, or the error of the
debug dump or of reading the body) the drain is the last effect before the return; for a
Client whose Config has, when Debug is on, a Logger whose `Printf` runs, the transport is
always called. -/
theorem do_drains_exactly_once (transport : Transport) (c : Client) (req : Request) :
    (∀ e, transport req = .error e → (c.do transport req).1.count .drain = 0) ∧
    (∀ ret, transport req = .ok ret → Event.send req ∈ (c.do transport req).1 →
      (c.do transport req).1.count .drain = 1) ∧
    (∀ ret val err, transport req = .ok ret → (c.do transport req).2 = .returned val err →
      (c.do transport req).1.count .drain = 1 ∧
      (c.do transport req).1.getLast? = some .drain) ∧
    (∀ cfg, c.cfg = some cfg → cfg.canLog →
      Event.send req ∈ (c.do transport req).1) := by
  rcases Client.do_shape transport c req with h | ⟨cfg, evs, hc, hev, h⟩
  · refine ⟨?_, ?_, ?_, ?_⟩
    · intro e _
      rw [h]
      rfl
    · intro ret _ hs
      rw [h] at hs
      simp at hs
    · intro ret val err _ ho
      rw [h] at ho
      simp at ho
    · intro cfg hc hl
      have := Client.do_ne_nilDeref transport c req cfg hc hl
      rw [h] at this
      exact absurd rfl this
  · refine ⟨?_, ?_, ?_, ?_⟩
    · intro e ht
      rw [h, ht]
      simp [List.count_append, hev]
    · intro ret ht _
      rw [h, ht]
      simp only [List.count_append, hev,
        deferredDrain_count_drain ret _ (doAfterDefer_count_drain cfg ret)]
      simp
    · intro ret val err ht ho
      rw [h, ht] at ho ⊢
      simp only at ho
      obtain ⟨htr, -⟩ := deferredDrain_returned ret _ val err ho
      constructor
      · simp only [List.count_append, hev,
          deferredDrain_count_drain ret _ (doAfterDefer_count_drain cfg ret)]
        simp
      · simp only [htr]
        simp [← List.append_assoc]
    · intro cfg2 _ _
      rw [h]
      cases transport req <;> simp

/-- C15 on a transport that answers with a Response, on one whose raw response cannot be
dumped (Debug on), on one whose body cannot be read, and on one that fails. -/
theorem do_drains_exactly_once_witness :
    ((plainClient.do okTransport getRequest).1.count .drain = 1 ∧
      (plainClient.do okTransport getRequest).1.getLast? = some .drain) ∧
    ((debugClient.do dumpFailTransport getRequest).1.count .drain = 1 ∧
      (debugClient.do dumpFailTransport getRequest).1.getLast? = some .drain) ∧
    ((plainClient.do readFailTransport getRequest).1.count .drain = 1 ∧
      (plainClient.do readFailTransport getRequest).1.getLast? = some .drain) ∧
    (plainClient.do failTransport getRequest).1.count .drain = 0 :=
  ⟨(do_drains_exactly_once okTransport plainClient getRequest).2.2.1 okResponse
      (some { Header := [("Content-Type", ["text/plain"])], Body := [111, 107],
              Status := 200 }) none rfl (by decide),
   (do_drains_exactly_once dumpFailTransport debugClient getRequest).2.2.1 dumpFailResponse
      none (some (.wrap1 (.foreign "dump failed"))) rfl (by decide),
   (do_drains_exactly_once readFailTransport plainClient getRequest).2.2.1 readFailResponse
      none (some (.wrap1 (.foreign "unexpected EOF"))) rfl (by decide),
   (do_drains_exactly_once failTransport plainClient getRequest).1
      (.foreign "connection refused") rfl⟩

/-! ## Reading maps kept as entry lists -/

theorem lookup_eq_none_iff_keys {β : Type} (m : List (String × β)) (k : String) :
    m.lookup k = none ↔ ∀ e ∈ m, e.1 ≠ k := by
  induction m with
  | nil => simp
  | cons e rest ih =>
    obtain ⟨k0, v0⟩ := e
    by_cases h : k = k0
    · subst h
      simp [List.lookup]
    · have h2 : (k == k0) = false := by simpa using h
      simp only [List.lookup, h2, ih, List.mem_cons, forall_eq_or_imp]
      constructor
      · intro hr
        exact ⟨fun hk => h hk.symm, hr⟩
      · intro hr
        exact hr.2

theorem lookup_append_single_self {β : Type} (m : List (String × β)) (k : String) (v : β)
    (h : m.lookup k = none) : (m ++ [(k, v)]).lookup k = some v := by
  induction m with
  | nil => simp [List.lookup]
  | cons e rest ih =>
    obtain ⟨k0, v0⟩ := e
    by_cases hk : k = k0
    · subst hk
      simp [List.lookup] at h
    · have h2 : (k == k0) = false := by simpa using hk
      simp only [List.lookup, h2] at h
      simp only [List.cons_append, List.lookup, h2]
      exact ih h

theorem lookup_append_single_other {β : Type} (m : List (String × β)) (k k2 : String)
    (v : β) (h : k2 ≠ k) : (m ++ [(k, v)]).lookup k2 = m.lookup k2 := by
  induction m with
  | nil =>
    have h2 : (k2 == k) = false := by simpa using h
    simp [List.lookup, h2]
  | cons e rest ih =>
    obtain ⟨k0, v0⟩ := e
    by_cases hk : k2 = k0
    · subst hk
      simp [List.lookup]
    · have h2 : (k2 == k0) = false := by simpa using hk
      simp only [List.cons_append, List.lookup, h2]
      exact ih

theorem mapSet_of_absent (m : HeaderMap) (k v : String) (h : m.lookup k = none) :
    mapSet m k v = m ++ [(k, v)] := by
  have hk := (lookup_eq_none_iff_keys m k).mp h
  unfold mapSet
  have hany : (m.any fun e => decide (e.1 = k)) = false := by
    rw [List.any_eq_false]
    intro e he
    simpa using hk e he
  simp [hany]

/-! ## C19: `request` writes into the caller's map -/

/-- C19: for a non-nil headers map without a "User-Agent" key and a Client whose Config
has an Application with a non-nil `UserAgent()`, the caller's map after `request`,
whatever request construction does, is the old map with the entry "User-Agent" mapped to
the User-Agent string of the Config's Application added: that key reads as that string
and every other key reads as before; a map that has a "User-Agent" key is left as it
is. -/
theorem request_writes_caller_map (libs : RequestLibs) (c : Client) (method uri : String)
    (m : HeaderMap) :
    (∀ v, m.lookup "User-Agent" = some v →
      (c.request libs method uri (some m)).1 = some m) ∧
    (∀ cfg app ua, m.lookup "User-Agent" = none → c.cfg = some cfg →
      cfg.Application = some app → app.UserAgent = some ua →
      ∃ m2, (c.request libs method uri (some m)).1 = some m2 ∧
        m2 = m ++ [("User-Agent", libs.uaString ua)] ∧
        m2.lookup "User-Agent" = some (libs.uaString ua) ∧
        (∀ k, k ≠ "User-Agent" → m2.lookup k = m.lookup k) ∧
        (∀ kv ∈ m, kv ∈ m2)) := by
  refine ⟨?_, ?_⟩
  · intro v hv
    simp [Client.request, mapGet, hv]
  · intro cfg app ua hn hc ha hu
    have hs : c.userAgentString libs = some (libs.uaString ua) := by
      simp [Client.userAgentString, hc, ha, hu]
    refine ⟨m ++ [("User-Agent", libs.uaString ua)], ?_, rfl,
      lookup_append_single_self m _ _ hn,
      fun k hk => lookup_append_single_other m _ k _ hk,
      fun kv hkv => List.mem_append_left _ hkv⟩
    simp [Client.request, mapGet, hn, hs, mapSet_of_absent m _ _ hn]

/-- C19 on a request whose construction fails (empty URI) and on a map that has a
User-Agent entry. -/
theorem request_writes_caller_map_witness :
    (∃ m2, (plainClient.request sampleLibs "GET" "" (some acceptHeaders)).1 = some m2 ∧
      m2.lookup "User-Agent" = some "Test App/1.0.0 (https://testapp.com)" ∧
      m2.lookup "Accept" = some "application/json") ∧
    (plainClient.request sampleLibs "GET" "https://example.com/" (some agentHeaders)).1
      = some agentHeaders := by
  refine ⟨?_, (request_writes_caller_map sampleLibs plainClient "GET" "https://example.com/"
      agentHeaders).1 "custom/2.0" (by decide)⟩
  obtain ⟨m2, h1, h2, h3, h4, -⟩ :=
    (request_writes_caller_map sampleLibs plainClient "GET" "" acceptHeaders).2
      _ testApp { Token := "Test App", Version := "1.0.0", Comment := ["https://testapp.com"] }
      (by decide) rfl rfl (by decide)
  refine ⟨m2, h1, ?_, ?_⟩
  · rw [h3]
    decide
  · rw [h4 "Accept" (by decide)]
    decide

/-! ## Reading a header after `Header.Set` -/

theorem lookup_replace_other (h : Header) (ck k2 : String) (v : String) (hne : k2 ≠ ck) :
    (h.map (fun e => if e.1 = ck then (ck, [v]) else e)).lookup k2 = h.lookup k2 := by
  induction h with
  | nil => rfl
  | cons e rest ih =>
    obtain ⟨k0, v0⟩ := e
    have h2 : (k2 == ck) = false := by simpa using hne
    rw [List.map_cons]
    by_cases hk : k0 = ck
    · have h3 : (k2 == k0) = false := by rw [hk]; exact h2
      rw [if_pos (show (k0, v0).1 = ck from hk)]
      simp only [List.lookup, h2, h3]
      exact ih
    · rw [if_neg (show ¬ (k0, v0).1 = ck from hk)]
      simp only [List.lookup]
      rw [ih]

theorem lookup_replace_self (h : Header) (ck : String) (v : String)
    (hany : ∃ e ∈ h, e.1 = ck) :
    (h.map (fun e => if e.1 = ck then (ck, [v]) else e)).lookup ck = some [v] := by
  induction h with
  | nil => simp at hany
  | cons e rest ih =>
    obtain ⟨k0, v0⟩ := e
    rw [List.map_cons]
    by_cases hk : k0 = ck
    · rw [if_pos (show (k0, v0).1 = ck from hk)]
      simp [List.lookup]
    · have h2 : (ck == k0) = false := by simpa using fun h => hk h.symm
      rw [if_neg (show ¬ (k0, v0).1 = ck from hk)]
      simp only [List.lookup, h2]
      apply ih
      obtain ⟨e, he, hek⟩ := hany
      rcases List.mem_cons.mp he with rfl | he
      · exact absurd hek hk
      · exact ⟨e, he, hek⟩

theorem Header.Set_lookup_self (canon : String → String) (h : Header) (k v : String) :
    (Header.Set canon h k v).lookup (canon k) = some [v] := by
  unfold Header.Set
  by_cases hany : (h.any fun e => decide (e.1 = canon k)) = true
  · rw [if_pos hany]
    apply lookup_replace_self
    simpa using hany
  · rw [if_neg hany]
    apply lookup_append_single_self
    rw [lookup_eq_none_iff_keys]
    intro e he hek
    apply hany
    rw [List.any_eq_true]
    exact ⟨e, he, by simpa using hek⟩

theorem Header.Set_lookup_other (canon : String → String) (h : Header) (k v k2 : String)
    (hne : k2 ≠ canon k) : (Header.Set canon h k v).lookup k2 = h.lookup k2 := by
  unfold Header.Set
  split_ifs
  · exact lookup_replace_other h _ k2 v hne
  · exact lookup_append_single_other h _ k2 _ hne

/-- The `range` loop of `request` touches only the header of the request. -/
theorem foldl_Set_fields (canon : String → String) (m : HeaderMap) (req0 : Request) :
    (m.foldl (fun r kv => { r with Header := Header.Set canon r.Header kv.1 kv.2 }) req0)
      = { req0 with
          Header := m.foldl (fun h kv => Header.Set canon h kv.1 kv.2) req0.Header } := by
  induction m generalizing req0 with
  | nil => rfl
  | cons e rest ih =>
    simp only [List.foldl_cons]
    rw [ih]

theorem foldl_Set_lookup_absent (canon : String → String) (m : HeaderMap) (h0 : Header)
    (k : String) (hk : ∀ e ∈ m, canon e.1 ≠ k) :
    (m.foldl (fun h kv => Header.Set canon h kv.1 kv.2) h0).lookup k = h0.lookup k := by
  induction m generalizing h0 with
  | nil => rfl
  | cons e rest ih =>
    simp only [List.foldl_cons]
    rw [ih _ (fun e2 he2 => hk e2 (List.mem_cons_of_mem _ he2))]
    exact Header.Set_lookup_other canon h0 e.1 e.2 k
      (fun hc => hk e (List.mem_cons_self _ _) hc.symm)

theorem foldl_Set_lookup_entry (canon : String → String) (m : HeaderMap) (h0 : Header)
    (hnodup : (m.map Prod.fst).Nodup) (hcanon : ∀ e ∈ m, canon e.1 = e.1) :
    ∀ e ∈ m, (m.foldl (fun h kv => Header.Set canon h kv.1 kv.2) h0).lookup e.1
      = some [e.2] := by
  induction m generalizing h0 with
  | nil => simp
  | cons e0 rest ih =>
    intro e he
    simp only [List.map_cons, List.nodup_cons] at hnodup
    simp only [List.foldl_cons]
    rcases List.mem_cons.mp he with rfl | he
    · rw [foldl_Set_lookup_absent]
      · have := Header.Set_lookup_self canon h0 e.1 e.2
        rwa [hcanon e (List.mem_cons_self _ _)] at this
      · intro e2 he2 hc
        rw [hcanon e2 (List.mem_cons_of_mem _ he2)] at hc
        exact hnodup.1 (hc ▸ List.mem_map_of_mem Prod.fst he2)
    · exact ih _ hnodup.2 (fun e2 he2 => hcanon e2 (List.mem_cons_of_mem _ he2)) e he

/-! ## C11: the headers of a built request -/

theorem lookup_some_mem {β : Type} (m : List (String × β)) (k : String) (v : β)
    (h : m.lookup k = some v) : (k, v) ∈ m := by
  induction m with
  | nil => simp at h
  | cons e rest ih =>
    obtain ⟨k0, v0⟩ := e
    by_cases hk : k = k0
    · subst hk
      simp only [List.lookup, beq_self_eq_true, Option.some.injEq] at h
      subst h
      exact List.mem_cons_self _ _
    · have h2 : (k == k0) = false := by simpa using hk
      simp only [List.lookup, h2] at h
      exact List.mem_cons_of_mem _ (ih h)

theorem NewClient_returned_cfg (urlParse : String → Option Error) (c0 : Config)
    (cl : Client) (h : (NewClient urlParse (some c0)).2 = .returned (some cl) none) :
    cl.cfg = some c0.init ∧
    ∃ app ua, c0.init.Application = some app ∧ app.UserAgent = some ua := by
  cases hv : c0.init.validate urlParse with
  | some e => simp [NewClient, hv] at h
  | none =>
    obtain ⟨app, ha, hav, -⟩ := (Config.validate_eq_none_iff urlParse _).mp hv
    simp only [NewClient, hv, ha, Outcome.returned.injEq, Option.some.injEq] at h
    refine ⟨by rw [← h.1], app,
      { Token := app.Name, Version := app.Version, Comment := [app.Contact] }, ha, ?_⟩
    simp [Application.UserAgent, hav]

theorem Client.requestBuild_debug_off (libs : RequestLibs) (c : Client)
    (method uri : String) (headers : Option HeaderMap) (cfg : Config) (req0 : Request)
    (hc : c.cfg = some cfg) (hd : cfg.Debug = false)
    (hreq : libs.newRequest method uri = .ok req0) :
    c.requestBuild libs method uri headers
      = ([.newRequest method uri], .returned (some
          { req0 with
            Header := (mapEntries headers).foldl
              (fun h kv => Header.Set libs.canon h kv.1 kv.2) req0.Header }) none) := by
  simp [Client.requestBuild, hreq, hc, hd, foldl_Set_fields]

/-- C11: for a Client built by `NewClient` from a Config with Debug off, a method and URI
that request construction accepts, and a non-nil headers map (distinct keys) whose keys
are in canonical form: `request` returns a request and no error; if the map has no
"User-Agent" key the request's User-Agent header is the single value rendering the
`UserAgent()` of the Config's Application; if the map has a "User-Agent" key the header is
the caller's value and the rendering of the Config's value plays no part; and every entry
`k -> v` of the map is on the request as header `k` with the single value `v`. -/
theorem request_sets_user_agent_and_headers (urlParse : String → Option Error)
    (c0 : Config) (cl : Client) (libs : RequestLibs) (method uri : String) (m : HeaderMap)
    (req0 : Request)
    (hnew : (NewClient urlParse (some c0)).2 = .returned (some cl) none)
    (hdebug : c0.Debug = false)
    (hreq : libs.newRequest method uri = .ok req0)
    (hnodup : (m.map Prod.fst).Nodup)
    (hcanon : ∀ e ∈ m, libs.canon e.1 = e.1)
    (hua : libs.canon "User-Agent" = "User-Agent") :
    ∃ app ua req, cl.cfg = some c0.init ∧ c0.init.Application = some app ∧
      app.UserAgent = some ua ∧
      (cl.request libs method uri (some m)).2.2 = .returned (some req) none ∧
      (m.lookup "User-Agent" = none →
        req.Header.lookup "User-Agent" = some [libs.uaString ua]) ∧
      (∀ v, m.lookup "User-Agent" = some v →
        req.Header.lookup "User-Agent" = some [v] ∧
        ∀ f, cl.request { libs with uaString := f } method uri (some m)
          = cl.request libs method uri (some m)) ∧
      (∀ e ∈ m, req.Header.lookup e.1 = some [e.2]) := by
  obtain ⟨hcfg, app, ua, ha, hu⟩ := NewClient_returned_cfg urlParse c0 cl hnew
  have hd : c0.init.Debug = false := by rw [Config.init_Debug, hdebug]
  have hs : cl.userAgentString libs = some (libs.uaString ua) := by
    simp [Client.userAgentString, hcfg, ha, hu]
  cases hl : m.lookup "User-Agent" with
  | some v =>
    have hb := Client.requestBuild_debug_off libs cl method uri (some m) c0.init req0
      hcfg hd hreq
    refine ⟨app, ua,
      { req0 with
        Header := m.foldl (fun h kv => Header.Set libs.canon h kv.1 kv.2) req0.Header },
      hcfg, ha, hu, ?_, ?_, ?_, ?_⟩
    · simp only [Client.request, mapGet, hl, Option.isSome_some, if_true, hb]
      rfl
    · intro h
      cases h
    · intro v2 hv2
      simp only [Option.some.injEq] at hv2
      subst hv2
      constructor
      · exact foldl_Set_lookup_entry libs.canon m req0.Header hnodup hcanon _
          (lookup_some_mem m _ _ hl)
      · intro f
        simp [Client.request, mapGet, hl, Client.requestBuild]
    · exact foldl_Set_lookup_entry libs.canon m req0.Header hnodup hcanon
  | none =>
    have hm2 : mapSet m "User-Agent" (libs.uaString ua)
        = m ++ [("User-Agent", libs.uaString ua)] := mapSet_of_absent m _ _ hl
    have hb := Client.requestBuild_debug_off libs cl method uri
      (some (m ++ [("User-Agent", libs.uaString ua)])) c0.init req0 hcfg hd hreq
    have hkeys := (lookup_eq_none_iff_keys m "User-Agent").mp hl
    have hnodup2 : ((m ++ [("User-Agent", libs.uaString ua)]).map Prod.fst).Nodup := by
      rw [List.map_append, List.nodup_append]
      refine ⟨hnodup, by simp, ?_⟩
      intro k hk1 hk2
      simp only [List.map_cons, List.map_nil, List.mem_singleton] at hk2
      obtain ⟨e, he, hek⟩ := List.mem_map.mp hk1
      exact hkeys e he (hek.trans hk2)
    have hcanon2 : ∀ e ∈ m ++ [("User-Agent", libs.uaString ua)], libs.canon e.1 = e.1 := by
      intro e he
      rcases List.mem_append.mp he with he | he
      · exact hcanon e he
      · simp only [List.mem_singleton] at he
        subst he
        exact hua
    have hall := foldl_Set_lookup_entry libs.canon _ req0.Header hnodup2 hcanon2
    refine ⟨app, ua,
      { req0 with
        Header := (m ++ [("User-Agent", libs.uaString ua)]).foldl
          (fun h kv => Header.Set libs.canon h kv.1 kv.2) req0.Header },
      hcfg, ha, hu, ?_, ?_, ?_, ?_⟩
    · simp only [Client.request, mapGet, hl, Option.isSome_none, hs, hm2, hb]
      rfl
    · intro _
      exact hall ("User-Agent", libs.uaString ua) (by simp)
    · intro v hv
      cases hv
    · intro e he
      exact hall e (List.mem_append_left _ he)

/-- C11 on the Client built from the test Config, with a map that lacks a User-Agent entry
and with one that has it. -/
theorem request_sets_user_agent_and_headers_witness :
    (∃ req, (plainClient.request sampleLibs "GET" "https://example.com/wp-json"
          (some acceptHeaders)).2.2 = .returned (some req) none ∧
      req.Header.lookup "User-Agent" = some ["Test App/1.0.0 (https://testapp.com)"] ∧
      req.Header.lookup "Accept" = some ["application/json"]) ∧
    (∃ req, (plainClient.request sampleLibs "GET" "https://example.com/wp-json"
          (some agentHeaders)).2.2 = .returned (some req) none ∧
      req.Header.lookup "User-Agent" = some ["custom/2.0"] ∧
      req.Header.lookup "Accept" = some ["application/json"]) := by
  constructor
  · obtain ⟨app, ua, req, -, ha, hu, hr, h1, -, h3⟩ :=
      request_sets_user_agent_and_headers sampleParse
        (testConfig (some testApp) "https://example.com" "u" "p") plainClient sampleLibs
        "GET" "https://example.com/wp-json" acceptHeaders
        { Method := "GET", URL := "https://example.com/wp-json", Header := [] }
        (by decide) rfl (by simp [sampleLibs]) (by decide) (by decide) (by decide)
    have happ : (testConfig (some testApp) "https://example.com" "u" "p").init.Application
        = some testApp := by decide
    rw [happ] at ha
    cases ha
    have hua : testApp.UserAgent
        = some { Token := "Test App", Version := "1.0.0", Comment := ["https://testapp.com"] } :=
      by decide
    rw [hua] at hu
    cases hu
    refine ⟨req, hr, ?_, h3 ("Accept", "application/json") (by decide)⟩
    rw [h1 (by decide)]
    decide
  · obtain ⟨app, ua, req, -, -, -, hr, -, h2, h3⟩ :=
      request_sets_user_agent_and_headers sampleParse
        (testConfig (some testApp) "https://example.com" "u" "p") plainClient sampleLibs
        "GET" "https://example.com/wp-json" agentHeaders
        { Method := "GET", URL := "https://example.com/wp-json", Header := [] }
        (by decide) rfl (by simp [sampleLibs]) (by decide) (by decide) (by decide)
    exact ⟨req, hr, (h2 "custom/2.0" (by decide)).1,
      h3 ("Accept", "application/json") (by decide)⟩

end Wordpress
